import Mathlib

/-!
Verification of the trusted-compute attested-randomness repository.

Part 1 embeds the Move module `app::random`
(src/move/random-example/sources/random.move): the `RandomNFT` record,
the `RandomResponse` payload, and the `submit_random` entry point with
its abort semantics (`Except` over Move abort codes).  The external
dependency `enclave::enclave::Enclave<T>` is abstracted by its
signature-verification behaviour, which is the only part `submit_random`
uses; the schema type parameter `T` is erased since no claim here
distinguishes schemas.

Part 2 embeds the JavaScript helpers of
src/dapp/frontend/lib/enclave.js: `hexToBytes` (with JavaScript
`parseInt(_, 16)` prefix-parsing and `Uint8Array` `ToUint8` coercion
modelled faithfully), `submitRandomToChain`, and `requestRandomNumber`.
-/

namespace app.random

/-- Move constant `RANDOM_INTENT: u8 = 0`. -/
def RANDOM_INTENT : Nat := 0

/-- Move constant `EInvalidSignature: u64 = 1`. -/
def EInvalidSignature : Nat := 1

/-- Move constant `EInvalidRange: u64 = 2`. -/
def EInvalidRange : Nat := 2

/-- Move struct `RandomNFT`: the issuance record minted by
`submit_random`.  `UID` is modelled as a natural number drawn freshly
from the transaction context. -/
structure RandomNFT where
  id : Nat
  random_number : Nat
  min : Nat
  max : Nat
  timestamp_ms : Nat
  deriving Repr, DecidableEq

/-- Move struct `RandomResponse`: the payload signed by the enclave. -/
structure RandomResponse where
  random_number : Nat
  min : Nat
  max : Nat
  deriving Repr, DecidableEq

/-- Abstract model of the external `enclave::enclave::Enclave<T>`
dependency: the module under verification only calls
`enclave.verify_signature(intent, timestamp_ms, payload, sig)`, so an
enclave is modelled by that boolean behaviour (arguments: intent scope,
timestamp in ms, payload, signature bytes). -/
structure Enclave where
  verify_signature : Nat → Nat → RandomResponse → List Nat → Bool

/-- Model of Sui's `TxContext` as a supply of fresh object ids. -/
structure TxContext where
  fresh : Nat
  deriving Repr, DecidableEq

/-- Model of `object::new(ctx)`: returns a fresh id and the advanced
context. -/
def object_new (ctx : TxContext) : Nat × TxContext :=
  (ctx.fresh, ⟨ctx.fresh + 1⟩)

/-- Move entry point `submit_random<T>`: validates the range
(`assert!(min < max)`, `assert!(random_number >= min && random_number <= max)`,
both aborting with `EInvalidRange`), then verifies the enclave signature
over `(RANDOM_INTENT, timestamp_ms, RandomResponse)` (aborting with
`EInvalidSignature` on failure), and finally mints a `RandomNFT` carrying
the four arguments.  Aborts are modelled as `Except.error` of the abort
code; success returns the minted record and the advanced context. -/
def submit_random (random_number min max timestamp_ms : Nat) (sig : List Nat)
    (enclave : Enclave) (ctx : TxContext) :
    Except Nat (RandomNFT × TxContext) :=
  if min < max then
    if random_number ≥ min ∧ random_number ≤ max then
      if enclave.verify_signature RANDOM_INTENT timestamp_ms
          { random_number := random_number, min := min, max := max } sig then
        let p := object_new ctx
        .ok ({ id := p.1, random_number := random_number, min := min,
               max := max, timestamp_ms := timestamp_ms }, p.2)
      else
        .error EInvalidSignature
    else
      .error EInvalidRange
  else
    .error EInvalidRange

/-- Move getter `public fun random_number(nft: &RandomNFT): u64`. -/
def random_number (nft : RandomNFT) : Nat :=
  nft.random_number

/-- Move getter `public fun min(nft: &RandomNFT): u64`. -/
def min (nft : RandomNFT) : Nat :=
  nft.min

/-- Move getter `public fun max(nft: &RandomNFT): u64`. -/
def max (nft : RandomNFT) : Nat :=
  nft.max

/-- Move getter `public fun timestamp_ms(nft: &RandomNFT): u64`. -/
def timestamp_ms (nft : RandomNFT) : Nat :=
  nft.timestamp_ms

end app.random

/-- JavaScript whitespace (the `StrWhiteSpaceChar` set skipped by
`parseInt` before parsing): space, tab, LF, CR, VT, FF, NBSP, BOM. -/
def isJsWhitespace (c : Char) : Bool :=
  c == ' ' || c == '\t' || c == '\n' || c == '\r' || c.toNat == 11 ||
    c.toNat == 12 || c.toNat == 0xA0 || c.toNat == 0xFEFF

/-- Value of a single radix-16 digit as recognised by JavaScript
`parseInt` (`0-9`, `a-f`, `A-F`), `none` for any other character. -/
def hexDigitVal (c : Char) : Option Nat :=
  if '0' ≤ c ∧ c ≤ '9' then some (c.toNat - '0'.toNat)
  else if 'a' ≤ c ∧ c ≤ 'f' then some (c.toNat - 'a'.toNat + 10)
  else if 'A' ≤ c ∧ c ≤ 'F' then some (c.toNat - 'A'.toNat + 10)
  else none

/-- Longest-prefix digit accumulation of `parseInt`: stops at the first
non-digit and keeps what was parsed so far; `none` means no digit was
consumed (the NaN case). -/
def parseHexDigits (acc : Option Nat) : List Char → Option Nat
  | [] => acc
  | c :: rest =>
    match hexDigitVal c with
    | some d => parseHexDigits (some (acc.getD 0 * 16 + d)) rest
    | none => acc

/-- JavaScript `parseInt(s, 16)`: skip leading whitespace, consume an
optional sign, strip an optional `0x`/`0X` prefix, then parse the
longest prefix of hex digits; `none` models the NaN result when no digit
is consumed. -/
def parseIntHex (s : List Char) : Option Int :=
  let s1 := s.dropWhile isJsWhitespace
  let sign : Int := if s1.head? = some '-' then -1 else 1
  let s2 := if s1.head? = some '-' ∨ s1.head? = some '+' then s1.tail else s1
  let s3 :=
    if s2.take 2 = ['0', 'x'] ∨ s2.take 2 = ['0', 'X'] then s2.drop 2 else s2
  match parseHexDigits none s3 with
  | none => none
  | some v => some (sign * v)

/-- The `ToUint8` coercion a `Uint8Array` store applies to the stored
number: NaN becomes 0, otherwise the integer is reduced modulo 2^8. -/
def toUint8 : Option Int → Nat
  | none => 0
  | some v => (v % 256).toNat

/-- The 2-character groups `hexToBytes` iterates over
(`hex.substr(i, 2)` for even `i`). -/
def hexPairs : List Char → List (List Char)
  | c1 :: c2 :: rest => [c1, c2] :: hexPairs rest
  | _ => []

/-- The `0x`-prefix stripping at the top of `hexToBytes`
(`hexString.startsWith('0x') ? hexString.slice(2) : hexString`). -/
def strip0x (s : List Char) : List Char :=
  if s.take 2 = ['0', 'x'] then s.drop 2 else s

/-- `hexToBytes` from src/dapp/frontend/lib/enclave.js: strips an
optional `0x` prefix, throws on odd length, and otherwise converts each
2-character group with `parseInt(_, 16)` into a `Uint8Array` slot. -/
def hexToBytes (s : List Char) : Except String (List Nat) :=
  if (strip0x s).length % 2 ≠ 0 then .error "Hex string length must be even"
  else .ok ((hexPairs (strip0x s)).map (fun p => toUint8 (parseIntHex p)))

/-- Lowercase hex digit for a value below 16. -/
def hexDigitChar (n : Nat) : Char :=
  if n < 10 then Char.ofNat (48 + n) else Char.ofNat (97 + (n - 10))

/-- Modelled from the spec: `bytes_to_hex` (the hex-string form of a
byte sequence referenced by the spec's encoding round-trip property) is
not part of the sources under src/; following the spec's description of
hex payloads it maps each byte to its two lowercase hex digits in
order, with no prefix. -/
def bytes_to_hex : List Nat → List Char
  | [] => []
  | b :: rest => hexDigitChar (b / 16) :: hexDigitChar (b % 16) ::
      bytes_to_hex rest

/-- A JavaScript number as far as this frontend code observes it: NaN,
an infinity, or a finite value (the finite values occurring here are
u64-sized integers). -/
inductive JsNum
  | nan
  | posInf
  | negInf
  | finite (v : Int)
  deriving Repr, DecidableEq

/-- JavaScript `Number.isFinite`. -/
def JsNum.isFinite : JsNum → Bool
  | .finite _ => true
  | _ => false

/-- Numeric value of a finite `JsNum` (junk 0 on the non-finite cases,
which the code only reaches after the finiteness guard). -/
def JsNum.val : JsNum → Int
  | .finite v => v
  | _ => 0

/-- An argument of the `submit_random` move call as encoded by
`submitRandomToChain`. -/
inductive TxArg
  | pureU64 (v : Int)
  | pureBytes (bs : List Nat)
  | object (id : String)
  deriving Repr, DecidableEq

/-- The transaction block built by `submitRandomToChain`: the single
`moveCall` plus the `transferObjects` of the minted record to the
sender. -/
structure TxSubmission where
  target : String
  typeArguments : List String
  arguments : List TxArg
  transferTo : String
  deriving Repr, DecidableEq

/-- `submitRandomToChain` from src/dapp/frontend/lib/enclave.js up to
the ledger boundary: converts the hex signature (which may throw),
coerces the four numeric inputs with `Number()` (the `JsNum` arguments
stand for the converted values), throws unless all four are finite, and
only then constructs the transaction block that is signed and sent.  An
`Except.error` models a throw before any ledger call. -/
def submitRandomToChain (appPackageId moduleName otwName
    enclaveObjectId : String) (randomNumber min max timestampMs : JsNum)
    (signature : List Char) (senderAddress : String) :
    Except String TxSubmission :=
  match hexToBytes signature with
  | .error e => .error e
  | .ok sigBytes =>
    if ¬(randomNumber.isFinite ∧ min.isFinite ∧ max.isFinite ∧
        timestampMs.isFinite) then
      .error "Invalid numeric values in payload"
    else
      .ok {
        target := appPackageId ++ "::" ++ moduleName ++ "::submit_random",
        typeArguments :=
          [appPackageId ++ "::" ++ moduleName ++ "::" ++ otwName],
        arguments := [.pureU64 randomNumber.val, .pureU64 min.val,
          .pureU64 max.val, .pureU64 timestampMs.val,
          .pureBytes sigBytes, .object enclaveObjectId],
        transferTo := senderAddress }

/-- An HTTP request as issued by `fetch` in `requestRandomNumber`: the
URL string, the method, and the structured JSON body
`{payload: {min, max}}`. -/
structure HttpRequest where
  url : String
  method : String
  payload_min : JsNum
  payload_max : JsNum
  deriving Repr, DecidableEq

/-- An HTTP response as observed by `requestRandomNumber`: the `ok`
flag, the status code, the error text, and the parsed JSON body
(held abstract as a string). -/
structure HttpResponse where
  ok : Bool
  status : Nat
  text : String
  data : String
  deriving Repr, DecidableEq

/-- `requestRandomNumber` from src/dapp/frontend/lib/enclave.js: the
network is passed explicitly as a function from requests to responses.
The code fetches the fixed relative path `/process_data` with body
`{payload: {min, max}}`; the `enclaveUrl` parameter appears in the
source signature but is never read. -/
def requestRandomNumber (min max : JsNum) (enclaveUrl : String)
    (net : HttpRequest → HttpResponse) : Except String String :=
  let req : HttpRequest :=
    { url := "/process_data"
      method := "POST"
      payload_min := min
      payload_max := max }
  let response := net req
  if ¬response.ok then
    .error ("Enclave request failed: " ++ toString response.status ++ " " ++
      response.text)
  else
    .ok response.data

open app.random in
/-- C1: whenever `min >= max`, or `random_number < min`, or
`random_number > max`, `submit_random` aborts with `EInvalidRange` (2)
for every enclave (hence regardless of signature validity), and no
`RandomNFT` is produced. -/
theorem submit_random_bad_range_aborts
    (rn mn mx ts : Nat) (sig : List Nat) (enclave : Enclave)
    (ctx : TxContext) (h : mn ≥ mx ∨ rn < mn ∨ rn > mx) :
    submit_random rn mn mx ts sig enclave ctx = .error EInvalidRange ∧
      ∀ nft ctx', submit_random rn mn mx ts sig enclave ctx ≠
        .ok (nft, ctx') := by
  have hmain : submit_random rn mn mx ts sig enclave ctx
      = .error EInvalidRange := by
    unfold submit_random
    rcases h with h | h | h
    · rw [if_neg (by omega)]
    · by_cases hmm : mn < mx
      · rw [if_pos hmm, if_neg (by omega)]
      · rw [if_neg hmm]
    · by_cases hmm : mn < mx
      · rw [if_pos hmm, if_neg (by omega)]
      · rw [if_neg hmm]
  exact ⟨hmain, fun nft ctx' hok => by rw [hmain] at hok; cases hok⟩

open app.random in
/-- C1 witness: concrete bad-range call (`min = 10 ≥ max = 5`) aborts
with code 2 even under an always-accepting enclave. -/
theorem submit_random_bad_range_aborts_witness :
    submit_random 7 10 5 1700000000000 [1, 2, 3]
        ⟨fun _ _ _ _ => true⟩ ⟨0⟩ = .error EInvalidRange ∧
      ∀ nft ctx', submit_random 7 10 5 1700000000000 [1, 2, 3]
        ⟨fun _ _ _ _ => true⟩ ⟨0⟩ ≠ .ok (nft, ctx') :=
  submit_random_bad_range_aborts 7 10 5 1700000000000 [1, 2, 3]
    ⟨fun _ _ _ _ => true⟩ ⟨0⟩ (Or.inl (by omega))

open app.random in
/-- C2: when `min < max`, `min ≤ random_number ≤ max`, and the enclave's
signature verification accepts the signature over the canonical intent
data `(RANDOM_INTENT, timestamp_ms, {random_number, min, max})`, the call
succeeds and mints exactly one `RandomNFT` whose four fields equal the
arguments unchanged. -/
theorem submit_random_success_mints
    (rn mn mx ts : Nat) (sig : List Nat) (enclave : Enclave)
    (ctx : TxContext)
    (h1 : mn < mx) (h2 : mn ≤ rn) (h3 : rn ≤ mx)
    (h4 : enclave.verify_signature RANDOM_INTENT ts
      { random_number := rn, min := mn, max := mx } sig = true) :
    ∃ nft ctx',
      submit_random rn mn mx ts sig enclave ctx = .ok (nft, ctx') ∧
        nft.random_number = rn ∧ nft.min = mn ∧ nft.max = mx ∧
        nft.timestamp_ms = ts := by
  refine ⟨⟨ctx.fresh, rn, mn, mx, ts⟩, ⟨ctx.fresh + 1⟩, ?_, rfl, rfl, rfl, rfl⟩
  unfold submit_random
  rw [if_pos h1, if_pos ⟨h2, h3⟩, if_pos h4]
  rfl

open app.random in
/-- C2 witness: the concrete successful submission of the spec's §8
scenario (`random_number = 42`, range `[1, 100]`) mints the expected
record under an accepting enclave. -/
theorem submit_random_success_mints_witness :
    ∃ nft ctx',
      submit_random 42 1 100 1700000000000 [9, 9]
        ⟨fun _ _ _ _ => true⟩ ⟨0⟩ = .ok (nft, ctx') ∧
        nft.random_number = 42 ∧ nft.min = 1 ∧ nft.max = 100 ∧
        nft.timestamp_ms = 1700000000000 :=
  submit_random_success_mints 42 1 100 1700000000000 [9, 9]
    ⟨fun _ _ _ _ => true⟩ ⟨0⟩ (by omega) (by omega) (by omega) rfl

open app.random in
/-- C3: when the range checks pass but signature verification returns
false, `submit_random` aborts with `EInvalidSignature` (1); and on any
abort of `submit_random` (any arguments, any abort code) no `RandomNFT`
is produced — the operation is atomic. -/
theorem submit_random_bad_sig_aborts
    (rn mn mx ts : Nat) (sig : List Nat) (enclave : Enclave)
    (ctx : TxContext)
    (h1 : mn < mx) (h2 : mn ≤ rn) (h3 : rn ≤ mx)
    (h4 : enclave.verify_signature RANDOM_INTENT ts
      { random_number := rn, min := mn, max := mx } sig = false) :
    submit_random rn mn mx ts sig enclave ctx = .error EInvalidSignature ∧
      ∀ (rn' mn' mx' ts' : Nat) (sig' : List Nat) (e' : Enclave)
        (c' : TxContext) (code : Nat),
        submit_random rn' mn' mx' ts' sig' e' c' = .error code →
        ∀ nft ctxOut, submit_random rn' mn' mx' ts' sig' e' c' ≠
          .ok (nft, ctxOut) := by
  constructor
  · unfold submit_random
    rw [if_pos h1, if_pos ⟨h2, h3⟩, if_neg (by simp [h4])]
  · intro rn' mn' mx' ts' sig' e' c' code herr nft ctxOut hok
    rw [herr] at hok
    cases hok

open app.random in
/-- C3 witness: a concrete in-range call under an always-rejecting
enclave aborts with code 1 and yields no record. -/
theorem submit_random_bad_sig_aborts_witness :
    submit_random 42 1 100 1700000000000 [9, 9]
        ⟨fun _ _ _ _ => false⟩ ⟨0⟩ = .error EInvalidSignature ∧
      ∀ (rn' mn' mx' ts' : Nat) (sig' : List Nat) (e' : Enclave)
        (c' : TxContext) (code : Nat),
        submit_random rn' mn' mx' ts' sig' e' c' = .error code →
        ∀ nft ctxOut, submit_random rn' mn' mx' ts' sig' e' c' ≠
          .ok (nft, ctxOut) :=
  submit_random_bad_sig_aborts 42 1 100 1700000000000 [9, 9]
    ⟨fun _ _ _ _ => false⟩ ⟨0⟩ (by omega) (by omega) (by omega) rfl

open app.random in
/-- Inversion helper shared by the theorems below: a successful
`submit_random` call implies both checks passed, and determines the
minted record and resulting context. -/
theorem submit_random_ok_inversion
    (rn mn mx ts : Nat) (sig : List Nat) (enclave : Enclave)
    (ctx : TxContext) (nft : RandomNFT) (ctx' : TxContext)
    (hok : submit_random rn mn mx ts sig enclave ctx = .ok (nft, ctx')) :
    (mn < mx ∧ mn ≤ rn ∧ rn ≤ mx) ∧
      enclave.verify_signature RANDOM_INTENT ts
        { random_number := rn, min := mn, max := mx } sig = true ∧
      nft = ⟨ctx.fresh, rn, mn, mx, ts⟩ ∧ ctx' = ⟨ctx.fresh + 1⟩ := by
  unfold submit_random at hok
  by_cases h1 : mn < mx
  · rw [if_pos h1] at hok
    by_cases h2 : rn ≥ mn ∧ rn ≤ mx
    · rw [if_pos h2] at hok
      by_cases h3 : enclave.verify_signature RANDOM_INTENT ts
          { random_number := rn, min := mn, max := mx } sig = true
      · rw [if_pos h3] at hok
        cases hok
        exact ⟨⟨h1, h2.1, h2.2⟩, h3, rfl, rfl⟩
      · rw [if_neg h3] at hok
        cases hok
    · rw [if_neg h2] at hok
      cases hok
  · rw [if_neg h1] at hok
    cases hok

open app.random in
/-- C4: `submit_random` mints only when both the range check and the
signature check have passed (first conjunct), and the range check is
evaluated strictly before signature verification: on a range violation
the outcome is `EInvalidRange` uniformly for every enclave, so the
verifier is never consulted (second conjunct). -/
theorem submit_random_checks_ordered
    (rn mn mx ts : Nat) (sig : List Nat) (enclave : Enclave)
    (ctx : TxContext) :
    (∀ nft ctx', submit_random rn mn mx ts sig enclave ctx = .ok (nft, ctx') →
        (mn < mx ∧ mn ≤ rn ∧ rn ≤ mx) ∧
          enclave.verify_signature RANDOM_INTENT ts
            { random_number := rn, min := mn, max := mx } sig = true) ∧
      (¬(mn < mx ∧ mn ≤ rn ∧ rn ≤ mx) →
        ∀ e' : Enclave, submit_random rn mn mx ts sig e' ctx =
          .error EInvalidRange) := by
  constructor
  · intro nft ctx' hok
    obtain ⟨hr, hv, _, _⟩ := submit_random_ok_inversion rn mn mx ts sig
      enclave ctx nft ctx' hok
    exact ⟨hr, hv⟩
  · intro hbad e'
    unfold submit_random
    by_cases h1 : mn < mx
    · rw [if_pos h1, if_neg (by omega)]
    · rw [if_neg h1]

open app.random in
/-- C4 witness: instantiated at a successful run (showing both checks
passed there) and at a range-violating run (showing enclave-independent
`EInvalidRange`). -/
theorem submit_random_checks_ordered_witness :
    ((3 : Nat) < 10 ∧ (3 : Nat) ≤ 5 ∧ (5 : Nat) ≤ 10) ∧
      (fun _ _ _ _ => true : Nat → Nat → RandomResponse → List Nat → Bool)
        RANDOM_INTENT 77 { random_number := 5, min := 3, max := 10 } [4] =
        true :=
  (submit_random_checks_ordered 5 3 10 77 [4]
      ⟨fun _ _ _ _ => true⟩ ⟨0⟩).1
    ⟨0, 5, 3, 10, 77⟩ ⟨1⟩ rfl

open app.random in
/-- C5: every `RandomNFT` ever created by `submit_random` satisfies
`min < max` and `min ≤ random_number ≤ max`, and the module's read-only
getters return the stored field values unchanged. -/
theorem randomNFT_invariant_and_getters
    (rn mn mx ts : Nat) (sig : List Nat) (enclave : Enclave)
    (ctx : TxContext) (nft : RandomNFT) (ctx' : TxContext)
    (hok : submit_random rn mn mx ts sig enclave ctx = .ok (nft, ctx')) :
    (nft.min < nft.max ∧ nft.min ≤ nft.random_number ∧
        nft.random_number ≤ nft.max) ∧
      random_number nft = nft.random_number ∧ min nft = nft.min ∧
        max nft = nft.max ∧ timestamp_ms nft = nft.timestamp_ms := by
  refine ⟨?_, rfl, rfl, rfl, rfl⟩
  obtain ⟨hr, _, hnft, _⟩ := submit_random_ok_inversion rn mn mx ts sig
    enclave ctx nft ctx' hok
  subst hnft
  exact hr

open app.random in
/-- C5 witness: the invariant and getter equations hold on the record
minted by a concrete successful call. -/
theorem randomNFT_invariant_and_getters_witness :
    (RandomNFT.min ⟨0, 5, 3, 10, 77⟩ < RandomNFT.max ⟨0, 5, 3, 10, 77⟩ ∧
        RandomNFT.min ⟨0, 5, 3, 10, 77⟩ ≤
          RandomNFT.random_number ⟨0, 5, 3, 10, 77⟩ ∧
        RandomNFT.random_number ⟨0, 5, 3, 10, 77⟩ ≤
          RandomNFT.max ⟨0, 5, 3, 10, 77⟩) ∧
      random_number ⟨0, 5, 3, 10, 77⟩ =
          RandomNFT.random_number ⟨0, 5, 3, 10, 77⟩ ∧
        app.random.min ⟨0, 5, 3, 10, 77⟩ = RandomNFT.min ⟨0, 5, 3, 10, 77⟩ ∧
        app.random.max ⟨0, 5, 3, 10, 77⟩ = RandomNFT.max ⟨0, 5, 3, 10, 77⟩ ∧
        timestamp_ms ⟨0, 5, 3, 10, 77⟩ =
          RandomNFT.timestamp_ms ⟨0, 5, 3, 10, 77⟩ :=
  randomNFT_invariant_and_getters 5 3 10 77 [4]
    ⟨fun _ _ _ _ => true⟩ ⟨0⟩ ⟨0, 5, 3, 10, 77⟩ ⟨1⟩ rfl

open app.random in
/-- C6: `submit_random` keeps no record of past submissions — if a tuple
succeeds once, the identical tuple submitted again (from the resulting
context) succeeds again and mints a second, independent record with
equal payload fields but a distinct id. -/
theorem submit_random_no_replay_protection
    (rn mn mx ts : Nat) (sig : List Nat) (enclave : Enclave)
    (ctx : TxContext) (nft1 : RandomNFT) (ctx' : TxContext)
    (hok : submit_random rn mn mx ts sig enclave ctx = .ok (nft1, ctx')) :
    ∃ nft2 ctx'',
      submit_random rn mn mx ts sig enclave ctx' = .ok (nft2, ctx'') ∧
        nft2.random_number = nft1.random_number ∧ nft2.min = nft1.min ∧
        nft2.max = nft1.max ∧ nft2.timestamp_ms = nft1.timestamp_ms ∧
        nft2.id ≠ nft1.id := by
  obtain ⟨⟨h1, h2, h3⟩, h4, hnft1, hctx'⟩ := submit_random_ok_inversion
    rn mn mx ts sig enclave ctx nft1 ctx' hok
  refine ⟨⟨ctx'.fresh, rn, mn, mx, ts⟩, ⟨ctx'.fresh + 1⟩, ?_, ?_⟩
  · unfold submit_random
    rw [if_pos h1, if_pos ⟨h2, h3⟩, if_pos h4]
    rfl
  · subst hnft1
    subst hctx'
    exact ⟨rfl, rfl, rfl, rfl, by simp⟩

open app.random in
/-- C6 witness: resubmitting the spec's §8 tuple from the context left
by a concrete successful run mints a second record with equal fields and
a distinct id. -/
theorem submit_random_no_replay_protection_witness :
    ∃ nft2 ctx'',
      submit_random 42 1 100 1700000000000 [9, 9]
          ⟨fun _ _ _ _ => true⟩ ⟨1⟩ = .ok (nft2, ctx'') ∧
        nft2.random_number =
            RandomNFT.random_number ⟨0, 42, 1, 100, 1700000000000⟩ ∧
        nft2.min = RandomNFT.min ⟨0, 42, 1, 100, 1700000000000⟩ ∧
        nft2.max = RandomNFT.max ⟨0, 42, 1, 100, 1700000000000⟩ ∧
        nft2.timestamp_ms =
            RandomNFT.timestamp_ms ⟨0, 42, 1, 100, 1700000000000⟩ ∧
        nft2.id ≠ RandomNFT.id ⟨0, 42, 1, 100, 1700000000000⟩ :=
  submit_random_no_replay_protection 42 1 100 1700000000000 [9, 9]
    ⟨fun _ _ _ _ => true⟩ ⟨0⟩ ⟨0, 42, 1, 100, 1700000000000⟩ ⟨1⟩ rfl

set_option maxRecDepth 10000 in
/-- Helper: one byte below 256 survives the round trip through its two
lowercase hex digits, JavaScript `parseInt(_, 16)`, and the `Uint8Array`
coercion. -/
theorem byte_roundtrip : ∀ b : Nat, b < 256 →
    toUint8 (parseIntHex [hexDigitChar (b / 16), hexDigitChar (b % 16)])
      = b := by
  decide

/-- Helper: the digit-pair decoding map is the identity on byte lists. -/
theorem map_toUint8_bytes (B : List Nat) (hB : ∀ b ∈ B, b < 256) :
    B.map (fun b => toUint8 (parseIntHex
      [hexDigitChar (b / 16), hexDigitChar (b % 16)])) = B := by
  induction B with
  | nil => rfl
  | cons b rest ih =>
    simp only [List.map_cons]
    rw [byte_roundtrip b (hB b (by simp)),
      ih (fun x hx => hB x (by simp [hx]))]

/-- Helper: grouping the hex encoding of a byte list into 2-character
chunks recovers the per-byte digit pairs. -/
theorem hexPairs_bytes_to_hex (B : List Nat) :
    hexPairs (bytes_to_hex B) =
      B.map (fun b => [hexDigitChar (b / 16), hexDigitChar (b % 16)]) := by
  induction B with
  | nil => rfl
  | cons b rest ih => simp [bytes_to_hex, hexPairs, ih]

/-- Helper: the hex encoding of a byte list has even length. -/
theorem bytes_to_hex_length (B : List Nat) :
    (bytes_to_hex B).length = 2 * B.length := by
  induction B with
  | nil => rfl
  | cons b rest ih =>
    simp only [bytes_to_hex, List.length_cons, ih]
    omega

/-- Helper: no lowercase hex digit is the character `x`. -/
theorem hexDigitChar_ne_x : ∀ n, n < 16 → hexDigitChar n ≠ 'x' := by
  decide

/-- Helper: the hex encoding of a byte list never starts with `0x`, so
the prefix stripping of `hexToBytes` leaves it unchanged. -/
theorem strip0x_bytes_to_hex (B : List Nat) :
    strip0x (bytes_to_hex B) = bytes_to_hex B := by
  cases B with
  | nil => rfl
  | cons b rest =>
    unfold strip0x
    rw [if_neg]
    intro hcontra
    simp only [bytes_to_hex, List.take] at hcontra
    injection hcontra with h1 hrest
    injection hrest with h2 htail
    exact hexDigitChar_ne_x (b % 16) (Nat.mod_lt b (by norm_num)) h2

/-- Helper: any string whose stripped form is the hex encoding of a
byte list of bytes decodes to exactly that byte list. -/
theorem hexToBytes_of_strip (B : List Nat) (hB : ∀ b ∈ B, b < 256)
    (s : List Char) (hs : strip0x s = bytes_to_hex B) :
    hexToBytes s = .ok B := by
  unfold hexToBytes
  rw [hs]
  have hlen : (bytes_to_hex B).length % 2 = 0 := by
    rw [bytes_to_hex_length]; omega
  rw [if_neg (by simp [hlen])]
  rw [hexPairs_bytes_to_hex, List.map_map]
  congr 1
  simpa [Function.comp] using map_toUint8_bytes B hB

/-- Helper: odd stripped length is rejected with the source's error
message. -/
theorem hexToBytes_odd_throws (s : List Char)
    (h : (strip0x s).length % 2 = 1) :
    hexToBytes s = .error "Hex string length must be even" := by
  unfold hexToBytes
  rw [if_pos (by omega)]

/-- C7: for every byte sequence `B`, `hexToBytes (bytes_to_hex B) = B`,
also through an explicit `0x` prefix (which `hexToBytes` strips), and
every string of odd length after prefix stripping is deterministically
rejected with an error rather than truncated. -/
theorem hex_encode_roundtrip (B : List Nat) (hB : ∀ b ∈ B, b < 256) :
    hexToBytes (bytes_to_hex B) = .ok B ∧
      hexToBytes ('0' :: 'x' :: bytes_to_hex B) = .ok B ∧
      ∀ s : List Char, (strip0x s).length % 2 = 1 →
        hexToBytes s = .error "Hex string length must be even" := by
  refine ⟨hexToBytes_of_strip B hB _ (strip0x_bytes_to_hex B), ?_,
    fun s hs => hexToBytes_odd_throws s hs⟩
  exact hexToBytes_of_strip B hB _ (by simp [strip0x])

/-- C7 witness: the concrete byte list `[0, 171, 255]` round-trips
through `bytes_to_hex` and `hexToBytes`. -/
theorem hex_encode_roundtrip_witness :
    hexToBytes (bytes_to_hex [0, 171, 255]) = .ok [0, 171, 255] :=
  (hex_encode_roundtrip [0, 171, 255] (by decide)).1

/-- C9: an even-length input containing a non-hex character is not
rejected by `hexToBytes`: the call returns a byte list (never throws),
and every 2-character group on which `parseInt` yields NaN is stored as
byte value 0 by the `Uint8Array` coercion. -/
theorem hexToBytes_invalid_chars_silent (s : List Char)
    (heven : s.length % 2 = 0) (hbad : ∃ c ∈ s, hexDigitVal c = none) :
    hexToBytes s =
        .ok ((hexPairs (strip0x s)).map (fun p => toUint8 (parseIntHex p))) ∧
      ∀ p ∈ hexPairs (strip0x s), parseIntHex p = none →
        toUint8 (parseIntHex p) = 0 := by
  constructor
  · unfold hexToBytes
    rw [if_neg]
    intro hodd
    unfold strip0x at hodd
    by_cases htake : s.take 2 = ['0', 'x']
    · rw [if_pos htake] at hodd
      rw [List.length_drop] at hodd
      omega
    · rw [if_neg htake] at hodd
      omega
  · intro p _ hnone
    rw [hnone]
    rfl

/-- C9 witness: the even-length non-hex string `zz` decodes without an
error to the single byte 0. -/
theorem hexToBytes_invalid_chars_silent_witness :
    hexToBytes ['z', 'z'] =
        .ok ((hexPairs (strip0x ['z', 'z'])).map
          (fun p => toUint8 (parseIntHex p))) ∧
      ∀ p ∈ hexPairs (strip0x ['z', 'z']), parseIntHex p = none →
        toUint8 (parseIntHex p) = 0 :=
  hexToBytes_invalid_chars_silent ['z', 'z'] (by decide)
    ⟨'z', by decide⟩

/-- C8: whenever any of the four numeric inputs of `submitRandomToChain`
is non-finite after `Number()` conversion, the call throws before the
transaction block is constructed: the result is an error and no ledger
submission is produced. -/
theorem submitRandomToChain_nonfinite_throws
    (appPackageId moduleName otwName enclaveObjectId : String)
    (randomNumber mn mx timestampMs : JsNum) (signature : List Char)
    (senderAddress : String)
    (h : ¬(randomNumber.isFinite ∧ mn.isFinite ∧ mx.isFinite ∧
        timestampMs.isFinite)) :
    (∃ e, submitRandomToChain appPackageId moduleName otwName
        enclaveObjectId randomNumber mn mx timestampMs signature
        senderAddress = .error e) ∧
      ∀ tx, submitRandomToChain appPackageId moduleName otwName
        enclaveObjectId randomNumber mn mx timestampMs signature
        senderAddress ≠ .ok tx := by
  have hmain : ∃ e, submitRandomToChain appPackageId moduleName otwName
      enclaveObjectId randomNumber mn mx timestampMs signature
      senderAddress = .error e := by
    unfold submitRandomToChain
    cases hexToBytes signature with
    | error e => exact ⟨e, rfl⟩
    | ok bs => exact ⟨"Invalid numeric values in payload", if_pos h⟩
  obtain ⟨e, he⟩ := hmain
  exact ⟨⟨e, he⟩, fun tx htx => by rw [he] at htx; cases htx⟩

/-- C8 witness: a concrete call with `randomNumber = NaN` (and valid
signature hex) throws and yields no transaction. -/
theorem submitRandomToChain_nonfinite_throws_witness :
    (∃ e, submitRandomToChain "0xpkg" "random" "RANDOM" "0xobj"
        JsNum.nan (JsNum.finite 1) (JsNum.finite 100)
        (JsNum.finite 1700000000000) ['a', 'b'] "0xsender" = .error e) ∧
      ∀ tx, submitRandomToChain "0xpkg" "random" "RANDOM" "0xobj"
        JsNum.nan (JsNum.finite 1) (JsNum.finite 100)
        (JsNum.finite 1700000000000) ['a', 'b'] "0xsender" ≠ .ok tx :=
  submitRandomToChain_nonfinite_throws "0xpkg" "random" "RANDOM" "0xobj"
    JsNum.nan (JsNum.finite 1) (JsNum.finite 100)
    (JsNum.finite 1700000000000) ['a', 'b'] "0xsender" (by decide)

/-- C10: `requestRandomNumber` never reads its `enclaveUrl` argument and
interacts with the network only through the fixed request
`POST /process_data` with body `{payload: {min, max}}`: for any two URL
arguments and any two network behaviours that agree on that one request,
the result is identical. -/
theorem requestRandomNumber_ignores_enclaveUrl
    (mn mx : JsNum) (u1 u2 : String)
    (net net' : HttpRequest → HttpResponse)
    (h : net ⟨"/process_data", "POST", mn, mx⟩ =
      net' ⟨"/process_data", "POST", mn, mx⟩) :
    requestRandomNumber mn mx u1 net = requestRandomNumber mn mx u2 net' := by
  simp only [requestRandomNumber]
  rw [h]

/-- C10 witness: the theorem instantiated at two different URLs and two
network behaviours that agree only on the fixed `/process_data`
request. -/
theorem requestRandomNumber_ignores_enclaveUrl_witness :
    requestRandomNumber (JsNum.finite 1) (JsNum.finite 100)
        "http://localhost:3000" (fun _ => ⟨true, 200, "", "signed"⟩) =
      requestRandomNumber (JsNum.finite 1) (JsNum.finite 100)
        "http://example.com" (fun r =>
          if r.url = "/process_data" then ⟨true, 200, "", "signed"⟩
          else ⟨false, 500, "wrong path", ""⟩) :=
  requestRandomNumber_ignores_enclaveUrl (JsNum.finite 1) (JsNum.finite 100)
    "http://localhost:3000" "http://example.com"
    (fun _ => ⟨true, 200, "", "signed"⟩)
    (fun r =>
      if r.url = "/process_data" then ⟨true, 200, "", "signed"⟩
      else ⟨false, 500, "wrong path", ""⟩)
    (by simp)
